import Mathlib

/-!
Verification of the xsql repository (go-mizu/xsql).

Shallow embedding conventions:
* Go strings scanned rune-by-rune are modelled as `List Char`; byte offsets
  into a query become character indices (all concrete inputs are ASCII, where
  the two coincide, and the scanner's decisions are per-rune in the source).
* `unicode.IsLetter` / `unicode.IsDigit` are modelled by their ASCII
  restrictions `Char.isAlpha` / `Char.isDigit`; every claim is evaluated on
  ASCII text.
* Loops whose index jumps forward by a computed amount are written with an
  explicit fuel parameter (structural recursion, so the kernel can evaluate
  them).  Every iteration of the corresponding Go loop advances the index by
  at least one, so fuel `length + 1` is never exhausted on any input; the
  fuel-exhaustion branches are unreachable and marked as such.
* In `rewritePlaceholders` the Go code discards the error of every skip
  helper; on error the helper returns index 0, which makes the Go loop either
  panic (slice bounds, when i > 0) or loop forever (when i = 0).  Both
  abnormal outcomes are modelled as `none`.
-/

namespace Xsql

/-! ### Column normalization (doc.go, normalizeColAscii / toLowerAscii) -/

/-- `toLowerAscii` (doc.go): lowercase ASCII letters only, other characters kept. -/
def toLowerAscii (s : List Char) : List Char :=
  s.map (fun c => if 'A' ≤ c ∧ c ≤ 'Z' then Char.ofNat (c.toNat + 32) else c)

/-- `normalizeColAscii` (doc.go): strip one matching quote pair among
`"…"`, backtick pair, `[…]` when length ≥ 2 and both boundary characters
match, then lowercase ASCII. -/
def normalizeColAscii (s : List Char) : List Char :=
  let l := s.length
  let s' :=
    if 2 ≤ l then
      let c0 := s.getD 0 ' '
      let cl := s.getD (l - 1) ' '
      if (c0 = '"' ∧ cl = '"') ∨ (c0 = '`' ∧ cl = '`') ∨ (c0 = '[' ∧ cl = ']') then
        (s.drop 1).take (l - 2)
      else s
    else s
  toLowerAscii s'

/-! ### SQL skipper (named.go, skip* helpers)

Each helper is defined by an auxiliary structural recursion on the suffix
`s.drop i`; the wrapper re-exposes the Go signature (whole text, index). -/

/-- Loop body of `skipSingleQuoted`/`skipDoubleQuoted`/`skipBacktickQuoted`
(named.go): scan the suffix for the closing character `q`, treating a doubled
`q` as an escape; return the index just past the closer. -/
def skipQuotedAux (q : Char) (msg : String) : List Char → Nat → Except String Nat
  | [], _ => .error msg
  | c :: rest, i =>
    if c = q then
      match rest with
      | [] => .ok (i + 1)
      | c2 :: rest2 =>
        if c2 = q then skipQuotedAux q msg rest2 (i + 2) else .ok (i + 1)
    else skipQuotedAux q msg rest (i + 1)

/-- `skipSingleQuoted` (named.go). -/
def skipSingleQuoted (s : List Char) (i : Nat) : Except String Nat :=
  skipQuotedAux '\'' "xsql: unterminated single-quoted string" (s.drop i) i

/-- `skipDoubleQuoted` (named.go). -/
def skipDoubleQuoted (s : List Char) (i : Nat) : Except String Nat :=
  skipQuotedAux '"' "xsql: unterminated double-quoted identifier" (s.drop i) i

/-- `skipBacktickQuoted` (named.go). -/
def skipBacktickQuoted (s : List Char) (i : Nat) : Except String Nat :=
  skipQuotedAux '`' "xsql: unterminated backtick-quoted identifier" (s.drop i) i

/-- Loop body of `skipLineComment` (named.go): advance to just past the next
newline, or to the end of the text. -/
def skipLineCommentAux : List Char → Nat → Nat
  | [], i => i
  | c :: rest, i => if c = '\n' then i + 1 else skipLineCommentAux rest (i + 1)

/-- `skipLineComment` (named.go). -/
def skipLineComment (s : List Char) (i : Nat) : Nat :=
  skipLineCommentAux (s.drop i) i

/-- Loop body of `skipBlockComment` (named.go): find the first `*/`, return
the index just past it; reaching the end is a hard error. -/
def skipBlockCommentAux : List Char → Nat → Except String Nat
  | [], _ => .error "xsql: unterminated block comment"
  | [_], _ => .error "xsql: unterminated block comment"
  | c :: c2 :: rest, i =>
    if c = '*' ∧ c2 = '/' then .ok (i + 2)
    else skipBlockCommentAux (c2 :: rest) (i + 1)

/-- `skipBlockComment` (named.go). -/
def skipBlockComment (s : List Char) (i : Nat) : Except String Nat :=
  skipBlockCommentAux (s.drop i) i

/-- `isTagChar` (named.go); `unicode.IsLetter`/`IsDigit` restricted to ASCII. -/
def isTagChar (c : Char) : Bool :=
  c = '_' || c.isAlpha || c.isDigit

/-- First index at which `pat` occurs as a sublist of `s` (Go `strings.Index`). -/
def indexOfSub (s pat : List Char) : Option Nat :=
  if pat.isPrefixOf s then some 0
  else
    match s with
    | [] => none
    | _ :: rest => (indexOfSub rest pat).map (· + 1)

/-- Result of `skipDollarQuoted` (named.go), whose Go form is `(int, bool, error)`:
`noRegion` is `(0, false, nil)` (the `$` is an ordinary character),
`unterminated` is `(0, true, err)`, `closed j` is `(j, true, nil)`. -/
inductive DollarScan where
  | noRegion
  | unterminated
  | closed (j : Nat)

/-- Scan the tag of a dollar-quote: advance past letters/digits/underscores
(stopping at `$`), mirroring the inner `for` loop of `skipDollarQuoted`. -/
def scanDollarTag : List Char → Nat → Nat
  | [], j => j
  | c :: rest, j =>
    if c ≠ '$' ∧ isTagChar c then scanDollarTag rest (j + 1) else j

/-- `skipDollarQuoted` (named.go): recognize `$tag$ … $tag$`; the closing
marker is a literal substring match of the whole opening marker. -/
def skipDollarQuoted (s : List Char) (i : Nat) : DollarScan :=
  match s.drop i with
  | [] => .noRegion
  | c :: _ =>
    if c ≠ '$' then .noRegion
    else
      let j := scanDollarTag (s.drop (i + 1)) (i + 1)
      match s.drop j with
      | [] => .noRegion
      | cj :: _ =>
        if cj ≠ '$' then .noRegion
        else
          let tag := (s.drop i).take (j + 1 - i)
          let k := j + 1
          match indexOfSub (s.drop k) tag with
          | none => .unterminated
          | some idx => .closed (k + idx + tag.length)

/-- Loop body of `parseIdent` (named.go): advance while the character is an
identifier character (same class as `isTagChar`). -/
def parseIdentAux : List Char → Nat → Nat
  | [], i => i
  | c :: rest, i =>
    if c = '_' || c.isAlpha || c.isDigit then parseIdentAux rest (i + 1) else i

/-- `parseIdent` (named.go): returns the identifier starting at `i` (possibly
empty) and the index just past it. -/
def parseIdent (s : List Char) (i : Nat) : List Char × Nat :=
  let e := parseIdentAux (s.drop i) i
  ((s.drop i).take (e - i), e)

/-- `nameToken` (named.go): one `:name` occurrence with its span. -/
structure NameToken where
  name : List Char
  start : Nat
  stop : Nat
  deriving Repr, DecidableEq

/-- Main loop of `findNamedParams` (named.go).  Fuel decreases once per
iteration; the Go loop advances `i` by at least one per iteration, so fuel
`s.length + 1 - i` suffices and the fuel-exhaustion branch is unreachable. -/
def findNamedParamsAux : Nat → List Char → Nat → Except String (List NameToken)
  | 0, _, _ => .error "xsql: internal: scanner fuel exhausted (unreachable)"
  | fuel + 1, s, i =>
    match s.drop i with
    | [] => .ok []
    | c :: rest =>
      if c = '\'' then
        match skipSingleQuoted s (i + 1) with
        | .error e => .error e
        | .ok j => findNamedParamsAux fuel s j
      else if c = '"' then
        match skipDoubleQuoted s (i + 1) with
        | .error e => .error e
        | .ok j => findNamedParamsAux fuel s j
      else if c = '`' then
        match skipBacktickQuoted s (i + 1) with
        | .error e => .error e
        | .ok j => findNamedParamsAux fuel s j
      else if c = '-' then
        if rest.take 1 = ['-'] then findNamedParamsAux fuel s (skipLineComment s (i + 2))
        else findNamedParamsAux fuel s (i + 1)
      else if c = '/' then
        if rest.take 1 = ['*'] then
          match skipBlockComment s (i + 2) with
          | .error e => .error e
          | .ok j => findNamedParamsAux fuel s j
        else findNamedParamsAux fuel s (i + 1)
      else if c = '$' then
        match skipDollarQuoted s i with
        | .unterminated => .error "xsql: unterminated dollar-quoted string"
        | .closed j => findNamedParamsAux fuel s j
        | .noRegion => findNamedParamsAux fuel s (i + 1)
      else if c = ':' then
        if rest.take 1 = [':'] then findNamedParamsAux fuel s (i + 2)
        else
          let (nm, e) := parseIdent s (i + 1)
          if nm = [] then findNamedParamsAux fuel s (i + 1)
          else
            match findNamedParamsAux fuel s e with
            | .error msg => .error msg
            | .ok out => .ok ({ name := nm, start := i, stop := e } :: out)
      else findNamedParamsAux fuel s (i + 1)

/-- `findNamedParams` (named.go). -/
def findNamedParams (s : List Char) : Except String (List NameToken) :=
  findNamedParamsAux (s.length + 1) s 0

/-! ### Placeholder rewriter (named.go, rewritePlaceholders) -/

/-- `Placeholder` (named.go). -/
inductive Placeholder where
  | question
  | dollar
  | atP
  | colonNum
  deriving Repr, DecidableEq

/-- The replacement text for one bare `?` at counter value `arg`
(the `case '?'` switch in `rewritePlaceholders`). -/
def placeholderText (ph : Placeholder) (arg : Nat) : List Char :=
  match ph with
  | .dollar => '$' :: (toString arg).toList
  | .atP => '@' :: 'p' :: (toString arg).toList
  | .colonNum => ':' :: (toString arg).toList
  | .question => ['?']

/-- The span `s[i:j]` of the text, copied verbatim for a skip region. -/
def seg (s : List Char) (i j : Nat) : List Char :=
  (s.drop i).take (j - i)

/-- Main loop of `rewritePlaceholders` (named.go).  `none` models the abnormal
outcomes: the Go code discards every skip error, after which `query[i:0]`
either panics (i > 0) or repeats the same state forever (i = 0); fuel
exhaustion is unreachable for fuel ≥ `s.length + 1 - i` since every normal
iteration advances `i`. -/
def rewriteAux (ph : Placeholder) : Nat → List Char → Nat → Nat → Option (List Char)
  | 0, _, _, _ => none
  | fuel + 1, s, i, arg =>
    match s.drop i with
    | [] => some []
    | c :: rest =>
      if c = '\'' then
        match skipSingleQuoted s (i + 1) with
        | .error _ => none
        | .ok j => (rewriteAux ph fuel s j arg).map (seg s i j ++ ·)
      else if c = '"' then
        match skipDoubleQuoted s (i + 1) with
        | .error _ => none
        | .ok j => (rewriteAux ph fuel s j arg).map (seg s i j ++ ·)
      else if c = '`' then
        match skipBacktickQuoted s (i + 1) with
        | .error _ => none
        | .ok j => (rewriteAux ph fuel s j arg).map (seg s i j ++ ·)
      else if c = '-' then
        if rest.take 1 = ['-'] then
          let j := skipLineComment s (i + 2)
          (rewriteAux ph fuel s j arg).map (seg s i j ++ ·)
        else (rewriteAux ph fuel s (i + 1) arg).map (c :: ·)
      else if c = '/' then
        if rest.take 1 = ['*'] then
          match skipBlockComment s (i + 2) with
          | .error _ => none
          | .ok j => (rewriteAux ph fuel s j arg).map (seg s i j ++ ·)
        else (rewriteAux ph fuel s (i + 1) arg).map (c :: ·)
      else if c = '$' then
        match skipDollarQuoted s i with
        | .unterminated => none
        | .closed j => (rewriteAux ph fuel s j arg).map (seg s i j ++ ·)
        | .noRegion => (rewriteAux ph fuel s (i + 1) arg).map (c :: ·)
      else if c = '?' then
        (rewriteAux ph fuel s (i + 1) (arg + 1)).map (placeholderText ph arg ++ ·)
      else (rewriteAux ph fuel s (i + 1) arg).map (c :: ·)

/-- `rewritePlaceholders` (named.go): identity for the question dialect,
otherwise the renumbering scan; `none` models panic/divergence on input whose
skip-scan fails (the Go code discards those errors). -/
def rewritePlaceholders (query : List Char) (ph : Placeholder) : Option (List Char) :=
  if ph = .question then some query
  else rewriteAux ph (query.length + 1) query 0 1

/-! ### Skip-region decomposition (specification of §4.9)

A second, specification-side view of the rewriter: the text decomposes into
skip-region chunks (copied verbatim) and plain characters, and rewriting
renders that decomposition replacing only plain `?` characters.  Used to
state that a single pass replaces only bare `?` outside skip regions. -/

/-- One chunk of the skip-region decomposition: a whole skip region
(quoted literal/identifier, comment, dollar block) or one plain character. -/
inductive Chunk where
  | region (txt : List Char)
  | plain (c : Char)

/-- Decompose the text from index `i` into skip regions and plain characters,
with exactly the region recognition of `rewriteAux` (same fuel discipline;
`none` on scan failure). -/
def scanChunksAux : Nat → List Char → Nat → Option (List Chunk)
  | 0, _, _ => none
  | fuel + 1, s, i =>
    match s.drop i with
    | [] => some []
    | c :: rest =>
      if c = '\'' then
        match skipSingleQuoted s (i + 1) with
        | .error _ => none
        | .ok j => (scanChunksAux fuel s j).map (.region (seg s i j) :: ·)
      else if c = '"' then
        match skipDoubleQuoted s (i + 1) with
        | .error _ => none
        | .ok j => (scanChunksAux fuel s j).map (.region (seg s i j) :: ·)
      else if c = '`' then
        match skipBacktickQuoted s (i + 1) with
        | .error _ => none
        | .ok j => (scanChunksAux fuel s j).map (.region (seg s i j) :: ·)
      else if c = '-' then
        if rest.take 1 = ['-'] then
          let j := skipLineComment s (i + 2)
          (scanChunksAux fuel s j).map (.region (seg s i j) :: ·)
        else (scanChunksAux fuel s (i + 1)).map (.plain c :: ·)
      else if c = '/' then
        if rest.take 1 = ['*'] then
          match skipBlockComment s (i + 2) with
          | .error _ => none
          | .ok j => (scanChunksAux fuel s j).map (.region (seg s i j) :: ·)
        else (scanChunksAux fuel s (i + 1)).map (.plain c :: ·)
      else if c = '$' then
        match skipDollarQuoted s i with
        | .unterminated => none
        | .closed j => (scanChunksAux fuel s j).map (.region (seg s i j) :: ·)
        | .noRegion => (scanChunksAux fuel s (i + 1)).map (.plain c :: ·)
      else (scanChunksAux fuel s (i + 1)).map (.plain c :: ·)

/-- Skip-region decomposition of a whole text. -/
def scanChunks (s : List Char) : Option (List Chunk) :=
  scanChunksAux (s.length + 1) s 0

/-- Render a chunk list for dialect `ph`: regions and plain non-`?`
characters verbatim, each plain `?` replaced by the dialect marker with the
running counter. -/
def renderChunks (ph : Placeholder) (arg : Nat) : List Chunk → List Char
  | [] => []
  | .region t :: rest => t ++ renderChunks ph arg rest
  | .plain c :: rest =>
    if c = '?' then placeholderText ph arg ++ renderChunks ph (arg + 1) rest
    else c :: renderChunks ph arg rest

/-! ### Parameter values (reflection model for named binding)

`V` models the Go `any` values that named binding inspects through
`reflect`: nil interface, scalars (kept opaque), slices (with a flag for
byte element type), arrays, pointers, structs and string-keyed maps.
A struct field is the tuple (declared name, exported?, anonymous?, db tag,
value), mirroring `reflect.StructField` plus the field value. -/

inductive V where
  | vnil
  | vint (n : Int)
  | vstr (s : String)
  | vbool (b : Bool)
  | vtime (t : Int)
  | vslice (elemByte : Bool) (elems : List V)
  | varray (elems : List V)
  | vptrNil
  | vptr (v : V)
  | vstruct (fields : List (String × Bool × Bool × String × V))
  | vmap (stringKey : Bool) (entries : List (String × V))

/-- Declared name of a modelled struct field. -/
def fldName (f : String × Bool × Bool × String × V) : String := f.1
/-- Whether the field is exported (Go `PkgPath == ""`). -/
def fldExported (f : String × Bool × Bool × String × V) : Bool := f.2.1
/-- Whether the field is anonymous (embedded). -/
def fldAnon (f : String × Bool × Bool × String × V) : Bool := f.2.2.1
/-- The field's `db` tag. -/
def fldTag (f : String × Bool × Bool × String × V) : String := f.2.2.2.1
/-- The field's value. -/
def fldVal (f : String × Bool × Bool × String × V) : V := f.2.2.2.2

/-- ASCII lowercase of a Go string (`strings.ToLower` on the ASCII inputs
used throughout). -/
def toLowerStr (s : String) : String := String.mk (toLowerAscii s.toList)

/-- `looksBindable` (named.go): deref pointers (nil anywhere → false); a
string-keyed map or a struct is bindable. -/
def looksBindable : V → Bool
  | .vptrNil => false
  | .vptr v => looksBindable v
  | .vmap stringKey _ => stringKey
  | .vstruct _ => true
  | _ => false

/-- Pointer-chain peel used by `addStructFields` for anonymous fields:
`none` when a nil pointer is hit, otherwise the pointed-to value. -/
def peelPtrs : V → Option V
  | .vptrNil => none
  | .vptr v => peelPtrs v
  | v => some v

/-- The lookup table `paramLookup.m`: lowercase name → value, as an
association list (first match wins on lookup, as in a Go map read). -/
def lutFind : List (String × V) → String → Option V
  | [], _ => none
  | (k, v) :: rest, key => if k = key then some v else lutFind rest key

/-- Membership test used for the duplicate-key check in `addStructFields`. -/
def lutContains (m : List (String × V)) (key : String) : Bool :=
  (lutFind m key).isSome

/-- Go map assignment `m[k] = v`: overwrite an existing key or append. -/
def lutStore : List (String × V) → String → V → List (String × V)
  | [], k, v => [(k, v)]
  | (k0, v0) :: rest, k, v =>
    if k0 = k then (k0, v) :: rest else (k0, v0) :: lutStore rest k v

/-- `(*paramLookup).lookup` (named.go): lowercase the name, then read the map. -/
def lutLookup (m : List (String × V)) (name : List Char) : Option V :=
  lutFind m (toLowerStr (String.mk name))

/-- `addStructFields` (named.go): walk declared fields in order; skip
unexported non-anonymous fields; for anonymous fields follow the pointer
chain and flatten a (non-nil) struct; otherwise register the field itself
under its tag or declared name (lowercased), with a hard error on a
duplicate key.  A nil anonymous pointer chain falls through to registration
with the nil pointer as value.  Fuel bounds the embedded-struct recursion
(the Go recursion is unbounded; spec §9 notes the hazard). -/
def addStructFields : Nat → List (String × V) → List (String × Bool × Bool × String × V) →
    Except String (List (String × V))
  | 0, _, _ => .error "xsql: internal: struct walk fuel exhausted (unreachable)"
  | _ + 1, dst, [] => .ok dst
  | fuel + 1, dst, f :: rest =>
    if fldExported f = false ∧ fldAnon f = false then addStructFields fuel dst rest
    else
      match (if fldAnon f then peelPtrs (fldVal f) else none) with
      | some (V.vstruct innerFields) =>
        match addStructFields fuel dst innerFields with
        | .error e => .error e
        | .ok dst' => addStructFields fuel dst' rest
      | _ =>
        if fldTag f = "-" then addStructFields fuel dst rest
        else
          let nm := if fldTag f = "" then fldName f else fldTag f
          let key := toLowerStr nm
          if lutContains dst key then
            .error ("xsql: named bind: duplicate key from struct tags/fields: " ++ key)
          else addStructFields fuel (dst ++ [(key, fldVal f)]) rest

/-- `buildParamLookup` (named.go): deref pointers (nil → ErrNilParams); a
string-keyed map stores every key lowercased; a struct is walked by
`addStructFields`; anything else is ErrUnsupportedArg. -/
def buildParamLookup : V → Except String (List (String × V))
  | .vptrNil => .error "xsql: named bind: nil params"
  | .vptr v => buildParamLookup v
  | .vmap false _ => .error "xsql: named bind: params must be struct or map[string]any"
  | .vmap true entries =>
    .ok (entries.foldl (fun m kv => lutStore m (toLowerStr kv.1) kv.2) [])
  | .vstruct fields => addStructFields 1000 [] fields
  | _ => .error "xsql: named bind: params must be struct or map[string]any"

/-- `isSliceOrArray` (named.go): a slice expands unless its element type is
byte; an array always expands; anything else (including an invalid value,
i.e. nil interface) is scalar. -/
def isSliceOrArray : V → Bool
  | .vslice elemByte _ => !elemByte
  | .varray _ => true
  | _ => false

/-- Elements of a sequence value (`rv.Len` / `rv.Index` in the loop). -/
def seqElems : V → List V
  | .vslice _ elems => elems
  | .varray elems => elems
  | _ => []

/-- The per-token splice of `bindNamedParams`' loop body: a sequence expands
into comma-joined `?` markers and its elements (a zero-length sequence into
the literal `NULL` and no arguments); a scalar into one `?` and itself. -/
def expandValue (val : V) : List Char × List V :=
  if isSliceOrArray val then
    let elems := seqElems val
    if elems.length = 0 then (("NULL").toList, [])
    else
      (List.intersperse ',' (elems.map (fun _ => '?')), elems)
  else (['?'], [val])

/-- The token loop of `bindNamedParams` (named.go): splice text between
tokens, expand each token's value, collect arguments; a missing name is a
hard error. -/
def bindLoop (query : List Char) (lut : List (String × V)) :
    List NameToken → Nat → Except String (List Char × List V)
  | [], last => .ok ((query.drop last), [])
  | t :: rest, last =>
    match lutLookup lut t.name with
    | none => .error ("xsql: named bind: missing value for :" ++ String.mk t.name)
    | some val =>
      let e := expandValue val
      match bindLoop query lut rest t.stop with
      | .error msg => .error msg
      | .ok (tailTxt, tailArgs) =>
        .ok (seg query last t.start ++ e.1 ++ tailTxt, e.2 ++ tailArgs)

/-- `bindNamedParams` (named.go): nil params error; no tokens → original
text and no arguments; otherwise build the lookup and run the token loop. -/
def bindNamedParams (query : List Char) (params : V) :
    Except String (List Char × List V) :=
  match params with
  | .vnil => .error "xsql: named bind: nil params"
  | p =>
    match findNamedParams query with
    | .error e => .error e
    | .ok toks =>
      if toks = [] then .ok (query, [])
      else
        match buildParamLookup p with
        | .error e => .error e
        | .ok lut => bindLoop query lut toks 0

/-- The `(string, []any, error)` triple returned by `Rebind`; every error
return site in the Go source is literally `return "", nil, err`. -/
structure RebindResult where
  text : List Char
  args : List V
  err : Option String

/-- `Rebind` (named.go): exactly one bindable argument selects the named
path (bind, then rewrite); anything else is the positional passthrough
(rewrite only, arguments returned unchanged).  `none` models the abnormal
outcomes of `rewritePlaceholders` (see there). -/
def Rebind (query : List Char) (ph : Placeholder) (params : List V) :
    Option RebindResult :=
  match params with
  | [p] =>
    if looksBindable p then
      match bindNamedParams query p with
      | .error e => some { text := [], args := [], err := some e }
      | .ok (qPos, args) =>
        (rewritePlaceholders qPos ph).map (fun t => { text := t, args := args, err := none })
    else (rewritePlaceholders query ph).map (fun t => { text := t, args := params, err := none })
  | _ => (rewritePlaceholders query ph).map (fun t => { text := t, args := params, err := none })

/-! ### Destination types (reflection model for the mapping engine, doc.go)

`GoType` models the `reflect.Type`s the mapper inspects.  Named struct types
are written `tstruct` directly (carrying a Scanner flag); `tnamed` wraps a
non-struct underlying type.  `time.Time` and `sql.RawBytes` get their own
constructors because the source compares them by type identity. -/

inductive GoType where
  | tbool
  | tint | tint8 | tint16 | tint32 | tint64
  | tuint | tuint8 | tuint16 | tuint32 | tuint64
  | tfloat32 | tfloat64
  | tstring
  | tptr (t : GoType)
  | tslice (elem : GoType)
  | ttime
  | trawbytes
  | tiface
  | tnamed (nm : String) (scanner : Bool) (under : GoType)
  | tstruct (nm : String) (scanner : Bool)
      (fields : List (String × Bool × Bool × String × GoType))

/-- `reflect.Kind`, restricted to the kinds the source dispatches on. -/
inductive GoKind where
  | kbool
  | kint | kint8 | kint16 | kint32 | kint64
  | kuint | kuint8 | kuint16 | kuint32 | kuint64
  | kfloat32 | kfloat64
  | kstring | kptr | kslice | kstruct | kiface
  deriving Repr, DecidableEq

/-- Declared name of a modelled struct-type field (generic tuple accessor). -/
def tname {α : Type} (f : String × Bool × Bool × String × α) : String := f.1
/-- Exportedness of a field (generic tuple accessor). -/
def texported {α : Type} (f : String × Bool × Bool × String × α) : Bool := f.2.1
/-- Anonymity (embedding) of a field (generic tuple accessor). -/
def tanon {α : Type} (f : String × Bool × Bool × String × α) : Bool := f.2.2.1
/-- `db` tag of a field (generic tuple accessor). -/
def ttag {α : Type} (f : String × Bool × Bool × String × α) : String := f.2.2.2.1
/-- Payload (value or type) of a field (generic tuple accessor). -/
def tpayload {α : Type} (f : String × Bool × Bool × String × α) : α := f.2.2.2.2

/-- `Kind()` of a modelled type: a named type has its underlying's kind;
`time.Time` is a struct kind, `sql.RawBytes` a slice kind. -/
def kindOf : GoType → GoKind
  | .tbool => .kbool
  | .tint => .kint
  | .tint8 => .kint8
  | .tint16 => .kint16
  | .tint32 => .kint32
  | .tint64 => .kint64
  | .tuint => .kuint
  | .tuint8 => .kuint8
  | .tuint16 => .kuint16
  | .tuint32 => .kuint32
  | .tuint64 => .kuint64
  | .tfloat32 => .kfloat32
  | .tfloat64 => .kfloat64
  | .tstring => .kstring
  | .tptr _ => .kptr
  | .tslice _ => .kslice
  | .ttime => .kstruct
  | .trawbytes => .kslice
  | .tiface => .kiface
  | .tnamed _ _ u => kindOf u
  | .tstruct _ _ _ => .kstruct

/-- `Elem()` for pointer and slice kinds. -/
def elemOf : GoType → GoType
  | .tptr t => t
  | .tslice e => e
  | .trawbytes => .tuint8
  | .tnamed _ _ u => elemOf u
  | _ => .tiface

/-- One step of `derefPtr`'s loop, bounded by fuel (the model's pointer
spines are finite; 100 covers every realistic type). -/
def derefPtrF : Nat → GoType → GoType
  | 0, t => t
  | fuel + 1, t => if kindOf t = .kptr then derefPtrF fuel (elemOf t) else t

/-- `derefPtr` (doc.go): strip all pointer layers. -/
def derefPtr (t : GoType) : GoType := derefPtrF 100 t

/-- `implementsScanner` (doc.go): whether the pointer form implements
`sql.Scanner`; modelled as a flag on named/struct types (builtin primitives,
pointers, slices and interfaces never do). -/
def implementsScanner : GoType → Bool
  | .tnamed _ sc _ => sc
  | .tstruct _ sc _ => sc
  | _ => false

/-- `isStruct` (doc.go). -/
def isStruct (t : GoType) : Bool := kindOf (derefPtr t) = .kstruct

/-- Declared fields of a struct type (a named struct is its own struct). -/
def structFieldsOf : GoType → Option (List (String × Bool × Bool × String × GoType))
  | .tstruct _ _ fs => some fs
  | .tnamed _ _ u => structFieldsOf u
  | _ => none

/-- `isDirectlyScannable` (doc.go): bool, integer, unsigned, float and string
kinds, byte slices, `time.Time` and `sql.RawBytes` by identity. -/
def isDirectlyScannable (t : GoType) : Bool :=
  let t := derefPtr t
  match kindOf t with
  | .kbool | .kint | .kint8 | .kint16 | .kint32 | .kint64
  | .kuint | .kuint8 | .kuint16 | .kuint32 | .kuint64
  | .kfloat32 | .kfloat64 | .kstring => true
  | .kslice => kindOf (elemOf t) = .kuint8
  | _ =>
    match t with
    | .ttime => true
    | .trawbytes => true
    | _ => false

/-- Bit width of an integer kind (Go `int` is modelled as 64-bit). -/
def intBits : GoType → Nat
  | .tint8 => 8
  | .tint16 => 16
  | .tint32 => 32
  | .tuint8 => 8
  | .tuint16 => 16
  | .tuint32 => 32
  | .tnamed _ _ u => intBits u
  | _ => 64

/-- Two's-complement truncation to `bits` bits: the semantics of Go's
`int8(x)`, `int16(x)`, … conversions used by `reflect.Value.SetInt`. -/
def wrapInt (bits : Nat) (n : Int) : Int :=
  (n + 2 ^ (bits - 1)) % 2 ^ bits - 2 ^ (bits - 1)

/-- Unsigned truncation to `bits` bits (`reflect.Value.SetUint`). -/
def wrapUint (bits : Nat) (n : Nat) : Nat := n % 2 ^ bits

/-- The post-assignment conversion chosen by `pickIndirect` (doc.go), as
data: the Go source builds closures; each constructor records which closure
and its captured data (`under`, original type `dt`, pointer layer count). -/
inductive PostKind where
  | bytesToString
  | setIntKind
  | setUintKind
  | setFloatKind
  | namedInt (under : GoType) (dt : GoType) (ptrCount : Nat)
  | namedUint (under : GoType) (dt : GoType) (ptrCount : Nat)
  | namedFloat (under : GoType) (dt : GoType) (ptrCount : Nat)
  | namedString (under : GoType) (dt : GoType) (ptrCount : Nat)

/-- Peel pointer layers counting them (the `under`/`ptrCount` loop of
`pickIndirect`), bounded by fuel. -/
def peelPtrTypes : Nat → GoType → Nat → GoType × Nat
  | 0, t, n => (t, n)
  | fuel + 1, t, n =>
    if kindOf t = .kptr then peelPtrTypes fuel (elemOf t) (n + 1) else (t, n)

/-- Type-identity test against the builtin `string` type; a named string
type is a different type. -/
def isBuiltinString : GoType → Bool
  | .tstring => true
  | _ => false

/-- `pickIndirect` (doc.go): choose a widened temporary type and conversion.
Branch 1: builtin string (non-pointer) scans via `[]byte`.  Branch 2: when no
pointer layer was peeled (`dt == base`), plain integer/unsigned/float kinds
use a widened 64-bit temporary.  Branch 3: otherwise peel pointers, and a
non-struct underlying of integer/unsigned/float/string kind converts through
the widened temporary, re-wrapping the pointer layers.  The guard
`dt == base` of branch 2 holds exactly when `dt` has no pointer layer
(`derefPtr` is the identity on non-pointer kinds); `isBuiltinString`
is the type-identity test `base == reflect.TypeOf("")`. -/
def pickIndirect (dt : GoType) : Option (GoType × PostKind) :=
  let base := derefPtr dt
  if isBuiltinString base ∧ kindOf dt ≠ .kptr then
    some (.tslice .tuint8, .bytesToString)
  else
    let branch2 : Option (GoType × PostKind) :=
      if kindOf dt ≠ .kptr then
        match kindOf dt with
        | .kint | .kint8 | .kint16 | .kint32 | .kint64 => some (.tint64, .setIntKind)
        | .kuint | .kuint8 | .kuint16 | .kuint32 | .kuint64 => some (.tuint64, .setUintKind)
        | .kfloat32 | .kfloat64 => some (.tfloat64, .setFloatKind)
        | _ => none
      else none
    match branch2 with
    | some r => some r
    | none =>
      let pc := peelPtrTypes 100 dt 0
      let under := pc.1
      if kindOf under ≠ .kstruct then
        match kindOf under with
        | .kint | .kint8 | .kint16 | .kint32 | .kint64 =>
          some (.tint64, .namedInt under dt pc.2)
        | .kuint | .kuint8 | .kuint16 | .kuint32 | .kuint64 =>
          some (.tuint64, .namedUint under dt pc.2)
        | .kfloat32 | .kfloat64 => some (.tfloat64, .namedFloat under dt pc.2)
        | .kstring => some (.tstring, .namedString under dt pc.2)
        | _ => none
      else none

/-! ### Struct field index (doc.go, buildStructIndex / parseTag) -/

/-- Comma splitting as in `parseTag`'s index loop (doc.go): a part ends at
each `,` and at the end of the tag, empty parts included. -/
def splitComma : List Char → List (List Char)
  | [] => [[]]
  | c :: rest =>
    let r := splitComma rest
    if c = ',' then [] :: r
    else (c :: r.headD []) :: r.tail

/-- `parseTag` (doc.go): `-` omits; comma-separated parts where `inline`
flags flattening and the first other non-empty part is the explicit name. -/
def parseTag (tag : String) : String × Bool × Bool :=
  if tag = "-" then ("", false, true)
  else if tag = "" then ("", false, false)
  else
    let r := (splitComma tag.data).foldl
      (fun acc part =>
        if part = ("inline").toList then (acc.1, true)
        else if part ≠ [] ∧ acc.1 = [] then (part, acc.2)
        else acc)
      ([], false)
    (String.mk r.1, r.2, false)

/-- The recursive `walk` of `buildStructIndex` (doc.go), linearized into a
worklist so the recursion is structural on fuel: each job is (remaining
fields, next field index, base path, forceInline).  Pushing the embedded
struct's job in front of the continuation preserves the source's
depth-first, first-name-wins order.  The `seen` set coincides with the
accumulated keys (first occurrence registers, later collisions ignored). -/
def walkJobs :
    Nat → List (List (String × Bool × Bool × String × GoType) × Nat × List Nat × Bool) →
    List (String × List Nat) → List (String × List Nat)
  | 0, _, acc => acc
  | _ + 1, [], acc => acc
  | fuel + 1, ([], _, _, _) :: stack, acc => walkJobs fuel stack acc
  | fuel + 1, (sf :: rest, i, base, forceInline) :: stack, acc =>
    let cont := (rest, i + 1, base, forceInline) :: stack
    if texported sf = false ∧ tanon sf = false then walkJobs fuel cont acc
    else
      let tag := ttag sf
      let pt := parseTag tag
      if pt.2.2 then walkJobs fuel cont acc
      else
        let ft := tpayload sf
        let path := base ++ [i]
        if (pt.2.1 ∨ (tanon sf ∧ (forceInline ∨ tag = ""))) ∧
            (isStruct ft ∨ (kindOf ft = .kptr ∧ isStruct (elemOf ft))) then
          match structFieldsOf (derefPtr ft) with
          | some innerFs => walkJobs fuel ((innerFs, 0, path, pt.2.1) :: cont) acc
          | none => walkJobs fuel cont acc
        else
          let nm := if pt.1 = "" then tname sf else pt.1
          let lc := toLowerStr nm
          if (acc.find? (fun kv => kv.1 = lc)).isSome then walkJobs fuel cont acc
          else walkJobs fuel cont (acc ++ [(lc, path)])

/-- `buildStructIndex` (doc.go): normalized name → field index path. -/
def buildStructIndex (rt : GoType) : List (String × List Nat) :=
  match structFieldsOf (derefPtr rt) with
  | some fs => walkJobs 10000 [(fs, 0, [], false)] []
  | none => []

/-- Lookup in a field index (`fieldIndex.byName` map read). -/
def lookupIndex : List (String × List Nat) → String → Option (List Nat)
  | [], _ => none
  | (k, p) :: rest, key => if k = key then some p else lookupIndex rest key

/-- `fieldTypeByPath` (doc.go). -/
def fieldTypeByPath : GoType → List Nat → GoType
  | t, [] => t
  | t, i :: rest =>
    fieldTypeByPath
      (tpayload (((structFieldsOf (derefPtr t)).getD []).getD i ("", true, false, "", .tiface)))
      rest

/-! ### Scan plans (doc.go, step / plan / getPlan) -/

/-- `step` (doc.go): one column's scan strategy. -/
inductive Step where
  | drop
  | direct (fpath : List Nat)
  | indirect (fpath : List Nat) (convTo : GoType) (post : PostKind)
  | whole

/-- `plan` (doc.go). -/
structure Plan where
  steps : List Step
  structDest : Bool
  scanDest : Bool

/-- Column-plan errors (doc.go error returns): `zeroColumns` is the
`scanWithMapper` pre-check, the two count mismatches are `getPlan`'s distinct
messages for Scanner and plain destinations, `convErr` a scan failure. -/
inductive MapErr where
  | zeroColumns
  | scannerCols (got : Nat)
  | mapCols (got : Nat)
  | convErr (msg : String)

/-- `makeFieldStep` (doc.go): Scanner field → direct; known indirect →
indirect; directly scannable or fallback → direct. -/
def makeFieldStep (rt : GoType) (fpath : List Nat) : Step :=
  let ft := fieldTypeByPath rt fpath
  if implementsScanner ft then .direct fpath
  else
    match pickIndirect ft with
    | some (convTo, post) => .indirect fpath convTo post
    | none => .direct fpath

/-- `makeWholeStep` (doc.go). -/
def makeWholeStep (t : GoType) : Step :=
  match pickIndirect t with
  | some (convTo, post) => .indirect [] convTo post
  | none => .direct []

/-- `getPlan` (doc.go).  The `sync.Map` cache is transparent here: plan
construction is a pure function of the type and column names (spec §5), so
the cached and rebuilt plans coincide. -/
def getPlan (rt : GoType) (cols : List String) : Except MapErr Plan :=
  if isStruct rt then
    .ok { steps :=
            cols.map (fun c =>
              match lookupIndex (buildStructIndex rt) c with
              | some fp => makeFieldStep rt fp
              | none => .drop),
          structDest := true, scanDest := implementsScanner rt }
  else if implementsScanner rt then
    if cols.length ≠ 1 then .error (.scannerCols cols.length)
    else .ok { steps := [.whole], structDest := false, scanDest := true }
  else if cols.length ≠ 1 then .error (.mapCols cols.length)
  else .ok { steps := [makeWholeStep rt], structDest := false, scanDest := false }

/-! ### Row scanning (doc.go, scanWithMapper / destPtrs) -/

/-- Raw driver values delivered by the external result cursor. -/
inductive DrvVal where
  | dNull
  | dInt (n : Int)
  | dFloat (p : Int)
  | dBool (b : Bool)
  | dBytes (s : String)
  | dStr (s : String)
  | dTime (t : Int)
  deriving Repr, DecidableEq

/-- The indirection temporaries allocated by `destPtrs` (`int64`, `uint64`,
`float64`, `[]byte` — possibly nil —, `string`). -/
inductive TmpVal where
  | tInt (n : Int)
  | tUint (n : Nat)
  | tFloat (p : Int)
  | tBytes (b : Option String)
  | tStr (s : String)

/-- Modelled destination values.  Float payloads are opaque (no claim
depends on float rounding); `mScanned` is a value populated by its own
custom-decode (`sql.Scanner`) capability; `mIface` a `driver.Value` stored
into an `any` destination; `mOpaque` the zero value of a type outside the
modelled fragment. -/
inductive MVal where
  | mInt (n : Int)
  | mUint (n : Nat)
  | mFloat (p : Int)
  | mBool (b : Bool)
  | mStr (s : String)
  | mBytes (b : Option String)
  | mTime (t : Int)
  | mRaw (b : Option String)
  | mPtrNil
  | mPtr (v : MVal)
  | mStruct (fields : List MVal)
  | mIface (d : Option DrvVal)
  | mScanned (d : DrvVal)
  | mOpaque

/-- Zero value of a modelled type (`reflect.New(rt).Elem()`), with fuel for
the nested struct recursion. -/
def zeroVal : Nat → GoType → MVal
  | 0, _ => .mOpaque
  | fuel + 1, t =>
    match t with
    | .tbool => .mBool false
    | .tint | .tint8 | .tint16 | .tint32 | .tint64 => .mInt 0
    | .tuint | .tuint8 | .tuint16 | .tuint32 | .tuint64 => .mUint 0
    | .tfloat32 | .tfloat64 => .mFloat 0
    | .tstring => .mStr ""
    | .tptr _ => .mPtrNil
    | .tslice e => (match kindOf e with | .kuint8 => .mBytes none | _ => .mOpaque)
    | .ttime => .mTime 0
    | .trawbytes => .mRaw none
    | .tiface => .mIface none
    | .tnamed _ _ u => zeroVal fuel u
    | .tstruct _ _ fs => .mStruct (fs.map (fun f => zeroVal fuel (tpayload f)))

/-- Modelled from the spec: the raw scan primitive of the external
`database/sql` collaborator (§6), writing a driver value into an indirection
temporary; restricted to the conversions the source's plans request. -/
def convertToTmp (convTo : GoType) (d : DrvVal) : Except String TmpVal :=
  match convTo, d with
  | .tint64, .dInt n => .ok (.tInt n)
  | .tuint64, .dInt n => if 0 ≤ n then .ok (.tUint n.toNat) else .error "xsql: negative into uint"
  | .tfloat64, .dFloat p => .ok (.tFloat p)
  | .tfloat64, .dInt n => .ok (.tFloat n)
  | .tslice _, .dBytes s => .ok (.tBytes (some s))
  | .tslice _, .dStr s => .ok (.tBytes (some s))
  | .tslice _, .dNull => .ok (.tBytes none)
  | .tstring, .dStr s => .ok (.tStr s)
  | .tstring, .dBytes s => .ok (.tStr s)
  | _, _ => .error "xsql: unsupported driver conversion"

/-- Modelled from the spec: direct scan of a driver value into a destination
of type `t` by the external scan primitive (§6): Scanner destinations use the
custom-decode capability; bool/time/bytes/RawBytes/interface are stored
directly. -/
def convertAssign (t : GoType) (d : DrvVal) : Except String MVal :=
  if implementsScanner t then .ok (.mScanned d)
  else
    match t, d with
    | .tbool, .dBool b => .ok (.mBool b)
    | .ttime, .dTime x => .ok (.mTime x)
    | .trawbytes, .dBytes s => .ok (.mRaw (some s))
    | .tslice _, .dBytes s => .ok (.mBytes (some s))
    | .tslice _, .dNull => .ok (.mBytes none)
    | .tiface, d => .ok (.mIface (some d))
    | _, _ => .error "xsql: unsupported direct scan"

/-- Wrap `ptrCount` pointer layers around a value
(`assignWithPointers`, doc.go). -/
def wrapPtrs : Nat → MVal → MVal
  | 0, v => v
  | k + 1, v => .mPtr (wrapPtrs k v)

/-- The post-assignment conversions of `pickIndirect` (doc.go), applied to
the temporary after a successful raw scan.  `dstType` is the destination
field's type (the Go closures read it from the `reflect.Value`); `SetInt`
etc. truncate to the destination kind's width. -/
def applyPost (dstType : GoType) (pk : PostKind) (src : TmpVal) : MVal :=
  match pk, src with
  | .bytesToString, .tBytes none => .mStr ""
  | .bytesToString, .tBytes (some s) => .mStr s
  | .setIntKind, .tInt n => .mInt (wrapInt (intBits dstType) n)
  | .setUintKind, .tUint n => .mUint (wrapUint (intBits dstType) n)
  | .setFloatKind, .tFloat p => .mFloat p
  | .namedInt under _ pc, .tInt n => wrapPtrs pc (.mInt (wrapInt (intBits under) n))
  | .namedUint under _ pc, .tUint n => wrapPtrs pc (.mUint (wrapUint (intBits under) n))
  | .namedFloat _ _ pc, .tFloat p => wrapPtrs pc (.mFloat p)
  | .namedString _ _ pc, .tStr s => wrapPtrs pc (.mStr s)
  | _, _ => .mOpaque

/-- `fieldByPathAlloc` (doc.go) combined with the write of the scanned or
converted value: walk the path, derefing one pointer layer per component and
allocating a zero pointee where the pointer is nil, then replace the final
field.  (Go performs the allocations in `destPtrs`/cleanup and the writes via
the scan; on the success path the combined effect is this replacement.) -/
def setPathAlloc : GoType → MVal → List Nat → MVal → MVal
  | _, _, [], x => x
  | t, v, i :: rest, x =>
    if kindOf t = .kptr then
      let pt := elemOf t
      let inner := match v with | .mPtr w => w | _ => zeroVal 1000 pt
      let fs := (structFieldsOf pt).getD []
      let ft := tpayload (fs.getD i ("", true, false, "", GoType.tiface))
      match inner with
      | .mStruct fvs =>
        .mPtr (.mStruct (fvs.set i (setPathAlloc ft (fvs.getD i .mOpaque) rest x)))
      | w => .mPtr w
    else
      let fs := (structFieldsOf t).getD []
      let ft := tpayload (fs.getD i ("", true, false, "", GoType.tiface))
      match v with
      | .mStruct fvs =>
        .mStruct (fvs.set i (setPathAlloc ft (fvs.getD i .mOpaque) rest x))
      | w => w

/-- Field `i` of a modelled struct value. -/
def mFieldAt (v : MVal) (i : Nat) : MVal :=
  match v with
  | .mStruct fs => fs.getD i .mOpaque
  | _ => .mOpaque

/-- Phase 1 of the struct scan (`rows.Scan` over `destPtrs`' slots): drop
columns go to the shared `sql.RawBytes` sink, direct columns write through
`fieldByPathAlloc`, indirect columns fill their temporaries; the pending
finalizations are collected in column order. -/
def execSteps (rt : GoType) :
    List (Step × DrvVal) → MVal →
    Except MapErr (MVal × List (List Nat × PostKind × TmpVal))
  | [], root => .ok (root, [])
  | (st, d) :: rest, root =>
    match st with
    | .drop => execSteps rt rest root
    | .whole => execSteps rt rest root
    | .direct fp =>
      match convertAssign (fieldTypeByPath rt fp) d with
      | .error e => .error (.convErr e)
      | .ok mv => execSteps rt rest (setPathAlloc rt root fp mv)
    | .indirect fp convTo pk =>
      match convertToTmp convTo d with
      | .error e => .error (.convErr e)
      | .ok tmp =>
        match execSteps rt rest root with
        | .error e => .error e
        | .ok (root', finals) => .ok (root', (fp, pk, tmp) :: finals)

/-- Phase 2 (`cleanup`, doc.go): apply the collected finalizations in column
order, allocating intermediate pointers as needed. -/
def applyFinals (rt : GoType) : List (List Nat × PostKind × TmpVal) → MVal → MVal
  | [], root => root
  | (fp, pk, tmp) :: rest, root =>
    applyFinals rt rest (setPathAlloc rt root fp (applyPost (fieldTypeByPath rt fp) pk tmp))

/-- `destPtrs` + `rows.Scan` + `cleanup` (doc.go) for a built plan. -/
def execPlan (rt : GoType) (p : Plan) (vals : List DrvVal) : Except MapErr MVal :=
  if p.structDest = false then
    match p.steps with
    | [.whole] => .ok (.mScanned (vals.getD 0 .dNull))
    | [.direct _] =>
      match convertAssign rt (vals.getD 0 .dNull) with
      | .error e => .error (.convErr e)
      | .ok mv => .ok mv
    | [.indirect _ convTo pk] =>
      match convertToTmp convTo (vals.getD 0 .dNull) with
      | .error e => .error (.convErr e)
      | .ok tmp => .ok (applyPost rt pk tmp)
    | _ => .ok (zeroVal 1000 rt)
  else
    match execSteps rt (p.steps.zip vals) (zeroVal 1000 rt) with
    | .error e => .error e
    | .ok (root, finals) => .ok (applyFinals rt finals root)

/-- `scanWithMapper` (doc.go): zero columns is a hard error before planning;
otherwise normalize the column names, build (or fetch) the plan, and execute
it on the row's driver values. -/
def scanRow (rt : GoType) (cols : List (String × DrvVal)) : Except MapErr MVal :=
  if cols.length = 0 then .error .zeroColumns
  else
    match getPlan rt (cols.map (fun c => String.mk (normalizeColAscii c.1.toList))) with
    | .error e => .error e
    | .ok p => execPlan rt p (cols.map (fun c => c.2))

/-! ### Auxiliary predicates used in theorem statements -/

/-- The exact stripping condition of `normalizeColAscii`: the label is at
least two characters long and its boundary characters form one of the three
recognized quote pairs. -/
def quoteWrapped (s : List Char) : Bool :=
  if 2 ≤ s.length then
    let c0 := s.getD 0 ' '
    let cl := s.getD (s.length - 1) ' '
    decide ((c0 = '"' ∧ cl = '"') ∨ (c0 = '`' ∧ cl = '`') ∨ (c0 = '[' ∧ cl = ']'))
  else false

/-- Whether a scan result is one of `getPlan`'s two column-count-mismatch
errors (Scanner or plain destination). -/
def isCountMismatch : Except MapErr MVal → Bool
  | .error (.scannerCols _) => true
  | .error (.mapCols _) => true
  | _ => false

/-- The argument-list contribution of one token under a lookup table:
sequence values contribute their elements, scalars themselves, an unresolved
name nothing (the loop errors before using it). -/
def argsOfTok (lut : List (String × V)) (t : NameToken) : List V :=
  match lutLookup lut t.name with
  | some v => (expandValue v).2
  | none => []

/-- The step `getPlan` builds for one column of a struct destination. -/
def stepOfCol (rt : GoType) (c : String × DrvVal) : Step :=
  match lookupIndex (buildStructIndex rt) (String.mk (normalizeColAscii c.1.toList)) with
  | some fp => makeFieldStep rt fp
  | none => .drop

/-- A step is safe for top-level field `k` when it writes nowhere
(drop/whole) or through a non-empty path that does not start at `k`. -/
def stepSafe (k : Nat) : Step → Prop
  | .direct fp => fp ≠ [] ∧ fp.head? ≠ some k
  | .indirect fp _ _ => fp ≠ [] ∧ fp.head? ≠ some k
  | _ => True

/-- A column is safe for top-level field `k` when it is unmatched, or its
matched field path is non-empty and does not start at `k`. -/
def colSafe (rt : GoType) (k : Nat) (c : String × DrvVal) : Bool :=
  match lookupIndex (buildStructIndex rt) (String.mk (normalizeColAscii c.1.toList)) with
  | some fp => decide (fp ≠ []) && decide (fp.head? ≠ some k)
  | none => true

/-! ## Theorems -/

/-- A label the stripping condition rejects is only lowercased. -/
theorem normalize_of_not_wrapped (s : List Char) (h : quoteWrapped s = false) :
    normalizeColAscii s = toLowerAscii s := by
  unfold normalizeColAscii
  unfold quoteWrapped at h
  by_cases hl : 2 ≤ s.length
  · simp only [if_pos hl] at h ⊢
    simp only [decide_eq_false_iff_not] at h
    rw [if_neg h]
  · simp only [if_neg hl]

/-- Wrapping a label in one of the recognized pairs strips back to the label. -/
theorem normalize_of_wrap (a b : Char) (X : List Char)
    (hp : (a = '"' ∧ b = '"') ∨ (a = '`' ∧ b = '`') ∨ (a = '[' ∧ b = ']')) :
    normalizeColAscii (a :: X ++ [b]) = toLowerAscii X := by
  unfold normalizeColAscii
  have hlen : (a :: X ++ [b]).length = X.length + 2 := by simp
  have h0 : (a :: X ++ [b]).getD 0 ' ' = a := by simp [List.getD]
  have h1 : (a :: X ++ [b]).getD (X.length + 2 - 1) ' ' = b := by
    show (a :: (X ++ [b])).getD (X.length + 1) ' ' = b
    simp [List.getD, List.getElem?_append_right]
  have hstrip : List.take (X.length + 2 - 2) (List.drop 1 (a :: X ++ [b])) = X := by
    show (X ++ [b]).take X.length = X
    exact List.take_left X [b]
  simp only [hlen, h0, h1, hstrip]
  rw [if_pos (by omega : (2 : Nat) ≤ X.length + 2), if_pos hp]

/-- C5 (amended): the normalizer strips exactly one matching quote pair
(`"…"`, backtick pair, `[…]`) when the label is at least two characters and
both boundary characters match, then lowercases ASCII; consequently, for a
label X that is not itself of quoted shape, the labels `"X"`, backtick-X,
`[X]` and bare `X` all normalize to lowercase X and any field-index lookup
on the normalized name behaves identically for the four; a label that is
itself of quoted shape is stripped again when bare (see the counterexample). -/
theorem C5_normalize_quote_pairs (X : List Char) (h : quoteWrapped X = false) :
    normalizeColAscii ('"' :: X ++ ['"']) = toLowerAscii X ∧
    normalizeColAscii ('`' :: X ++ ['`']) = toLowerAscii X ∧
    normalizeColAscii ('[' :: X ++ [']']) = toLowerAscii X ∧
    normalizeColAscii X = toLowerAscii X ∧
    ∀ (idx : List (String × List Nat)),
      lookupIndex idx (String.mk (normalizeColAscii ('"' :: X ++ ['"']))) =
        lookupIndex idx (String.mk (toLowerAscii X)) ∧
      lookupIndex idx (String.mk (normalizeColAscii ('`' :: X ++ ['`']))) =
        lookupIndex idx (String.mk (toLowerAscii X)) ∧
      lookupIndex idx (String.mk (normalizeColAscii ('[' :: X ++ [']']))) =
        lookupIndex idx (String.mk (toLowerAscii X)) ∧
      lookupIndex idx (String.mk (normalizeColAscii X)) =
        lookupIndex idx (String.mk (toLowerAscii X)) := by
  have e1 := normalize_of_wrap '"' '"' X (by simp)
  have e2 := normalize_of_wrap '`' '`' X (by simp)
  have e3 := normalize_of_wrap '[' ']' X (by simp)
  have e4 := normalize_of_not_wrapped X h
  refine ⟨e1, e2, e3, e4, fun idx => ?_⟩
  rw [e1, e2, e3, e4]
  exact ⟨rfl, rfl, rfl, rfl⟩

/-- C5 counterexample: for the label X = `"a"` (which itself looks quoted),
the bare label normalizes to `a` while the wrapped labels normalize to
`"a"`, so the four labels do not all normalize to lowercase X. -/
theorem C5_counterexample :
    normalizeColAscii (("\"a\"").toList) = ("a").toList ∧
    normalizeColAscii ('"' :: ("\"a\"").toList ++ ['"']) = ("\"a\"").toList ∧
    ("a").toList ≠ ("\"a\"").toList := by
  refine ⟨by decide, by decide, by decide⟩

/-- C5 witness: the theorem applied at the concrete label `Abc`. -/
theorem C5_witness :
    quoteWrapped (("Abc").toList) = false ∧
    normalizeColAscii (("Abc").toList) = toLowerAscii (("Abc").toList) :=
  ⟨by decide, (C5_normalize_quote_pairs (("Abc").toList) (by decide)).2.2.2.1⟩

/-- C7: a zero-length sequence value (non-byte slice or array) expands to
the literal `NULL` and contributes no argument entries — as the per-token
expansion, as the token-loop splice, and end-to-end through `Rebind`. -/
theorem C7_empty_sequence_null :
    (expandValue (.vslice false []) = (("NULL").toList, []) ∧
     expandValue (.varray []) = (("NULL").toList, [])) ∧
    (∀ (q : List Char) (lut : List (String × V)) (t : NameToken)
        (rest : List NameToken) (last : Nat) (tailTxt : List Char)
        (tailArgs : List V) (val : V),
      lutLookup lut t.name = some val →
      isSliceOrArray val = true →
      seqElems val = [] →
      bindLoop q lut rest t.stop = .ok (tailTxt, tailArgs) →
      bindLoop q lut (t :: rest) last =
        .ok (seg q last t.start ++ ("NULL").toList ++ tailTxt, tailArgs)) ∧
    Rebind (("x IN (:v)").toList) .atP [.vmap true [("v", .vslice false [])]] =
      some { text := ("x IN (NULL)").toList, args := [], err := none } := by
  refine ⟨⟨rfl, rfl⟩, ?_, rfl⟩
  intro q lut t rest last tailTxt tailArgs val hlk hseq helems htail
  have hexp : expandValue val = (("NULL").toList, []) := by
    simp [expandValue, hseq, helems]
  simp [bindLoop, hlk, htail, hexp]

/-- C7 witness: the token-loop part applied at a concrete token and table. -/
theorem C7_witness :
    lutLookup [("v", V.vslice false [])] (("v").toList) = some (.vslice false []) ∧
    bindLoop ((":v").toList) [("v", V.vslice false [])]
        [{ name := ("v").toList, start := 0, stop := 2 }] 0 =
      .ok (("NULL").toList, []) :=
  ⟨rfl, by
    have := C7_empty_sequence_null.2.1 ((":v").toList) [("v", V.vslice false [])]
      { name := ("v").toList, start := 0, stop := 2 } [] 0 [] []
      (.vslice false []) rfl rfl rfl rfl
    simpa using this⟩

/-- C8: a 64-bit integer source value 7 scanned into an `int32` destination
goes through the explicit widened `int64` temporary chosen by
`pickIndirect` and is narrowed on assignment, yielding exactly 7; in
general the narrowing is the two's-complement truncation to 32 bits. -/
theorem C8_int32_widen_narrow :
    pickIndirect .tint32 = some (.tint64, .setIntKind) ∧
    scanRow .tint32 [("n", .dInt 7)] = .ok (.mInt 7) ∧
    ∀ n : Int, scanRow .tint32 [("n", .dInt n)] = .ok (.mInt (wrapInt 32 n)) :=
  ⟨rfl, rfl, fun _ => rfl⟩

/-- C9 (amended): a nil anonymous embedded pointer-to-record field does not
contribute its sub-tree's keys (no recursion into the record), but the
field itself is registered under its own lowercased name with the nil
pointer as value; a non-nil anonymous embedded pointer has the record's
fields flattened into the parent namespace.  (An error occurs exactly when
a registered name collides — see the counterexample.) -/
theorem C9_nil_embedded_pointer (z y : V) :
    buildParamLookup (.vstruct
        [("E", true, true, "", .vptrNil), ("Y", true, false, "y", y)]) =
      .ok [("e", .vptrNil), ("y", y)] ∧
    buildParamLookup (.vstruct
        [("E", true, true, "", .vptr (.vstruct [("Z", true, false, "z", z)])),
         ("Y", true, false, "y", y)]) =
      .ok [("z", z), ("y", y)] ∧
    lutFind [("e", V.vptrNil), ("y", y)] "z" = none :=
  ⟨rfl, rfl, rfl⟩

/-- C9 counterexample: visiting a record with a nil anonymous embedded
pointer-to-record field is not always error-free: the field is registered
under its own name, and a sibling tagged with the same name is a hard
duplicate-key error. -/
theorem C9_counterexample :
    buildParamLookup (.vstruct
        [("E", true, true, "", .vptrNil), ("X", true, false, "e", .vint 1)]) =
      .error "xsql: named bind: duplicate key from struct tags/fields: e" := rfl

/-- C1 (amended): in the named path (one bindable argument), a scan error
from the extractor — in particular every unterminated-region error — makes
`Rebind` fail atomically for every dialect: an error with empty text and no
arguments.  The positional passthrough path, however, discards the
scanner's errors: with the question dialect the text is returned unchanged
with the original arguments and no error (other dialects produce no normal
result on such input). -/
theorem C1_unterminated_named_atomic :
    (∀ (q : List Char) (ph : Placeholder) (v : V) (e : String),
      looksBindable v = true → findNamedParams q = .error e →
      Rebind q ph [v] = some { text := [], args := [], err := some e }) ∧
    (∀ (q : List Char) (args : List V),
      (match args with | [p] => looksBindable p = false | _ => True) →
      Rebind q .question args = some { text := q, args := args, err := none }) := by
  constructor
  · intro q ph v e hv he
    cases v <;> simp_all [Rebind, bindNamedParams, looksBindable]
  · intro q args h
    match args with
    | [] => simp [Rebind, rewritePlaceholders]
    | [p] => simp [Rebind, h, rewritePlaceholders]
    | p :: p2 :: ps => simp [Rebind, rewritePlaceholders]

/-- C1 counterexample: in the positional passthrough path, a query with an
unterminated single-quoted literal does not fail: with the question dialect
the original (non-empty) text is returned with no error. -/
theorem C1_counterexample :
    Rebind (("'abc").toList) .question [] =
      some { text := ("'abc").toList, args := [], err := none } ∧
    ("'abc").toList ≠ ([] : List Char) :=
  ⟨rfl, by decide⟩

/-- C1 witness: the named path applied at a concrete unterminated query. -/
theorem C1_witness :
    looksBindable (V.vmap true [("a", .vint 1)]) = true ∧
    findNamedParams (("'abc :a").toList) =
      .error "xsql: unterminated single-quoted string" ∧
    Rebind (("'abc :a").toList) .dollar [.vmap true [("a", .vint 1)]] =
      some { text := [], args := [],
             err := some "xsql: unterminated single-quoted string" } :=
  ⟨rfl, rfl,
    C1_unterminated_named_atomic.1 (("'abc :a").toList) .dollar
      (V.vmap true [("a", .vint 1)]) "xsql: unterminated single-quoted string" rfl rfl⟩

/-- C3 (amended): in the named path, when the extractor finds no named
tokens, `Rebind` returns zero arguments and no positional fallback, but the
text is the placeholder-rewritten query, not necessarily the original: it
is unchanged only when rewriting is the identity (in particular for the
question dialect). -/
theorem C3_no_tokens_rewrites :
    (∀ (q : List Char) (ph : Placeholder) (v : V),
      looksBindable v = true → findNamedParams q = .ok [] →
      Rebind q ph [v] =
        (rewritePlaceholders q ph).map (fun t => { text := t, args := [], err := none })) ∧
    (∀ (q : List Char) (v : V),
      looksBindable v = true → findNamedParams q = .ok [] →
      Rebind q .question [v] = some { text := q, args := [], err := none }) := by
  have part1 : ∀ (q : List Char) (ph : Placeholder) (v : V),
      looksBindable v = true → findNamedParams q = .ok [] →
      Rebind q ph [v] =
        (rewritePlaceholders q ph).map (fun t => { text := t, args := [], err := none }) := by
    intro q ph v hv he
    cases v <;> simp_all [Rebind, bindNamedParams, looksBindable]
  refine ⟨part1, fun q v hv he => ?_⟩
  rw [part1 q .question v hv he]
  simp [rewritePlaceholders]

/-- C3 counterexample: named path, no named tokens, dollar dialect: the
returned text is the rewritten query `a=$1`, not the original `a=?`. -/
theorem C3_counterexample :
    Rebind (("a=?").toList) .dollar [.vmap true [("k", .vint 1)]] =
      some { text := ("a=$1").toList, args := [], err := none } ∧
    ("a=$1").toList ≠ ("a=?").toList :=
  ⟨rfl, by decide⟩

/-- C3 witness: the theorem applied at a concrete token-free query. -/
theorem C3_witness :
    looksBindable (V.vmap true [("k", .vint 1)]) = true ∧
    findNamedParams (("a=?").toList) = .ok [] ∧
    Rebind (("a=?").toList) .atP [.vmap true [("k", .vint 1)]] =
      (rewritePlaceholders (("a=?").toList) .atP).map
        (fun t => { text := t, args := [], err := none }) :=
  ⟨rfl, rfl,
    C3_no_tokens_rewrites.1 (("a=?").toList) .atP (V.vmap true [("k", .vint 1)]) rfl rfl⟩

/-- C2: the scenario `WHERE a=:x OR b=:x OR c IN (:arr) OR d=:x` with
x ↦ 9, arr ↦ [1] under the dollar dialect yields
`WHERE a=$1 OR b=$2 OR c IN ($3) OR d=$4` with arguments [9,9,1,9];
the lookup stores each name once; a scalar expands to exactly its value;
and in general the argument list is the left-to-right concatenation of
every token occurrence's expansion, so a name used K times contributes K
entries. -/
theorem C2_repeated_name_resolution :
    Rebind (("WHERE a=:x OR b=:x OR c IN (:arr) OR d=:x").toList) .dollar
        [.vmap true [("x", .vint 9), ("arr", .vslice false [.vint 1])]] =
      some { text := ("WHERE a=$1 OR b=$2 OR c IN ($3) OR d=$4").toList,
             args := [.vint 9, .vint 9, .vint 1, .vint 9], err := none } ∧
    buildParamLookup (.vmap true [("x", .vint 9), ("arr", .vslice false [.vint 1])]) =
      .ok [("x", .vint 9), ("arr", .vslice false [.vint 1])] ∧
    (∀ v : V, isSliceOrArray v = false → (expandValue v).2 = [v]) ∧
    (∀ (q : List Char) (lut : List (String × V)) (toks : List NameToken) (last : Nat),
      (∀ t ∈ toks, (lutLookup lut t.name).isSome = true) →
      ∃ txt, bindLoop q lut toks last = .ok (txt, toks.flatMap (argsOfTok lut))) := by
  refine ⟨rfl, rfl, ?_, ?_⟩
  · intro v h
    simp [expandValue, h]
  · intro q lut toks
    induction toks with
    | nil => intro last _; exact ⟨q.drop last, by simp [bindLoop]⟩
    | cons t rest ih =>
      intro last hall
      have ht : (lutLookup lut t.name).isSome = true := hall t (by simp)
      obtain ⟨v, hv⟩ := Option.isSome_iff_exists.mp ht
      obtain ⟨txt', htxt'⟩ := ih t.stop (fun u hu => hall u (by simp [hu]))
      refine ⟨seg q last t.start ++ (expandValue v).1 ++ txt', ?_⟩
      simp [bindLoop, hv, htxt', argsOfTok]

/-- C2 witness: the token-loop part applied at a concrete repeated token. -/
theorem C2_witness :
    (∀ t ∈ [{ name := ("x").toList, start := 0, stop := 2 : NameToken},
            { name := ("x").toList, start := 3, stop := 5 : NameToken}],
      (lutLookup [("x", V.vint 9)] t.name).isSome = true) ∧
    (∃ txt, bindLoop ((":x :x").toList) [("x", V.vint 9)]
        [{ name := ("x").toList, start := 0, stop := 2 },
         { name := ("x").toList, start := 3, stop := 5 }] 0 =
      .ok (txt,
        ([{ name := ("x").toList, start := 0, stop := 2 : NameToken},
          { name := ("x").toList, start := 3, stop := 5 : NameToken}]).flatMap
          (argsOfTok [("x", V.vint 9)]))) :=
  ⟨by decide,
    C2_repeated_name_resolution.2.2.2 ((":x :x").toList) [("x", V.vint 9)]
      [{ name := ("x").toList, start := 0, stop := 2 },
       { name := ("x").toList, start := 3, stop := 5 }] 0 (by decide)⟩

/-- C6: scanning into a scalar (non-struct) destination with two or more
result columns fails with one of the two column-count-mismatch errors, and
zero result columns is always the zero-columns error, whatever the
destination type. -/
theorem C6_column_count_errors :
    (∀ (rt : GoType) (cols : List (String × DrvVal)),
      cols.length = 0 → scanRow rt cols = .error .zeroColumns) ∧
    (∀ (rt : GoType) (cols : List (String × DrvVal)),
      isStruct rt = false → 2 ≤ cols.length →
      isCountMismatch (scanRow rt cols) = true) := by
  constructor
  · intro rt cols h
    simp [scanRow, h]
  · intro rt cols h1 h2
    have hne : ¬ cols.length = 0 := by omega
    have hlen : (cols.map (fun c => String.mk (normalizeColAscii c.1.toList))).length =
        cols.length := by simp
    simp only [scanRow, if_neg hne, getPlan, h1, Bool.false_eq_true, if_false]
    by_cases hs : implementsScanner rt <;>
      simp [hs, hlen, isCountMismatch, show ¬ cols.length = 1 by omega]

/-- Rendering after prepending a region chunk is appending the region's
text (pointwise congruence under `Option.map`). -/
theorem map_render_region (ph : Placeholder) (arg : Nat) (t : List Char)
    (o : Option (List Chunk)) :
    Option.map ((fun x => t ++ x) ∘ renderChunks ph arg) o =
    Option.map (renderChunks ph arg ∘ fun x => Chunk.region t :: x) o := by
  cases o <;> simp [renderChunks, Function.comp]

/-- Rendering after prepending a plain non-`?` chunk is prepending the
character. -/
theorem map_render_plain (ph : Placeholder) (arg : Nat) (c : Char)
    (hc : ¬ c = '?') (o : Option (List Chunk)) :
    Option.map ((fun x => c :: x) ∘ renderChunks ph arg) o =
    Option.map (renderChunks ph arg ∘ fun x => Chunk.plain c :: x) o := by
  cases o <;> simp [renderChunks, Function.comp, hc]

/-- Rendering after prepending a plain `?` chunk emits the dialect marker
and advances the counter. -/
theorem map_render_question (ph : Placeholder) (arg : Nat)
    (o : Option (List Chunk)) :
    Option.map ((fun x => placeholderText ph arg ++ x) ∘ renderChunks ph (arg + 1)) o =
    Option.map (renderChunks ph arg ∘ fun x => Chunk.plain '?' :: x) o := by
  cases o <;> simp [renderChunks, Function.comp]

/-- One rewriting pass is the chunkwise render of the skip-region
decomposition: regions and ordinary characters are copied verbatim and only
plain `?` characters are replaced. -/
theorem rewriteAux_eq_render (ph : Placeholder) :
    ∀ (fuel : Nat) (s : List Char) (i arg : Nat),
      rewriteAux ph fuel s i arg = (scanChunksAux fuel s i).map (renderChunks ph arg) := by
  intro fuel
  induction fuel with
  | zero => intro s i arg; rfl
  | succ n ih =>
    intro s i arg
    cases hd : s.drop i with
    | nil => simp [rewriteAux, scanChunksAux, hd, renderChunks]
    | cons c rest =>
      simp only [rewriteAux, scanChunksAux, hd]
      by_cases h1 : c = '\''
      · simp only [if_pos h1]
        cases skipSingleQuoted s (i + 1) with
        | error e => rfl
        | ok j =>
          simp only [ih, Option.map_map]
          exact map_render_region ph arg (seg s i j) _
      · simp only [if_neg h1]
        by_cases h2 : c = '"'
        · simp only [if_pos h2]
          cases skipDoubleQuoted s (i + 1) with
          | error e => rfl
          | ok j =>
            simp only [ih, Option.map_map]
            exact map_render_region ph arg (seg s i j) _
        · simp only [if_neg h2]
          by_cases h3 : c = '`'
          · simp only [if_pos h3]
            cases skipBacktickQuoted s (i + 1) with
            | error e => rfl
            | ok j =>
              simp only [ih, Option.map_map]
              exact map_render_region ph arg (seg s i j) _
          · simp only [if_neg h3]
            by_cases h4 : c = '-'
            · simp only [if_pos h4]
              by_cases h4b : rest.take 1 = ['-']
              · simp only [if_pos h4b]
                simp only [ih, Option.map_map]
                exact map_render_region ph arg (seg s i (skipLineComment s (i + 2))) _
              · simp only [if_neg h4b, h4]
                simp only [ih, Option.map_map]
                exact map_render_plain ph arg '-' (by decide) _
            · simp only [if_neg h4]
              by_cases h5 : c = '/'
              · simp only [if_pos h5]
                by_cases h5b : rest.take 1 = ['*']
                · simp only [if_pos h5b]
                  cases skipBlockComment s (i + 2) with
                  | error e => rfl
                  | ok j =>
                    simp only [ih, Option.map_map]
                    exact map_render_region ph arg (seg s i j) _
                · simp only [if_neg h5b, h5]
                  simp only [ih, Option.map_map]
                  exact map_render_plain ph arg '/' (by decide) _
              · simp only [if_neg h5]
                by_cases h6 : c = '$'
                · simp only [if_pos h6]
                  cases skipDollarQuoted s i with
                  | unterminated => rfl
                  | closed j =>
                    simp only [ih, Option.map_map]
                    exact map_render_region ph arg (seg s i j) _
                  | noRegion =>
                    simp only [h6, ih, Option.map_map]
                    exact map_render_plain ph arg '$' (by decide) _
                · simp only [if_neg h6]
                  by_cases h7 : c = '?'
                  · simp only [if_pos h7, h7]
                    simp only [ih, Option.map_map]
                    exact map_render_question ph arg _
                  · simp only [if_neg h7]
                    simp only [ih, Option.map_map]
                    exact map_render_plain ph arg c h7 _

/-- C4 (amended): a single rewriting pass replaces only bare `?` outside
skip regions — it equals the chunkwise render of the query's skip-region
decomposition, regions copied verbatim — and the question dialect returns
the text unchanged.  A second pass on the output is NOT always a no-op:
replacements can create new dollar-quote tags that change the region
structure (see the counterexample). -/
theorem C4_single_pass_only_bare_questions :
    (∀ (q : List Char) (ph : Placeholder), ph ≠ .question →
      rewritePlaceholders q ph = (scanChunks q).map (renderChunks ph 1)) ∧
    (∀ q : List Char, rewritePlaceholders q .question = some q) := by
  constructor
  · intro q ph h
    unfold rewritePlaceholders scanChunks
    rw [if_neg h]
    exact rewriteAux_eq_render ph (q.length + 1) q 0 1
  · intro q
    simp [rewritePlaceholders]

/-- C4 counterexample: rewriting is not stable under a second pass.  For
`?a$ x -- $1a$ ? b\nS` under the dollar dialect, the first pass yields
`$1a$ x -- $1a$ ? b\nS`; in that output the replacement `$1` and the text
`a$` form the dollar-quote tag `$1a$`, whose region now swallows the
comment opener, so the second pass sees the comment's `?` as bare and
produces `$1a$ x -- $1a$ $1 b\nS` — an already-rewritten query is changed
again. -/
theorem C4_counterexample :
    rewritePlaceholders (("?a$ x -- $1a$ ? b\nS").toList) .dollar =
      some (("$1a$ x -- $1a$ ? b\nS").toList) ∧
    rewritePlaceholders (("$1a$ x -- $1a$ ? b\nS").toList) .dollar =
      some (("$1a$ x -- $1a$ $1 b\nS").toList) ∧
    ("$1a$ x -- $1a$ $1 b\nS").toList ≠ ("$1a$ x -- $1a$ ? b\nS").toList :=
  ⟨rfl, rfl, by decide⟩

/-- C4 witness: the chunk-render equality applied at a concrete query and
the dollar dialect. -/
theorem C4_witness :
    (Placeholder.dollar ≠ .question) ∧
    rewritePlaceholders (("a=? -- ?").toList) .dollar =
      (scanChunks (("a=? -- ?").toList)).map (renderChunks .dollar 1) :=
  ⟨by decide,
    C4_single_pass_only_bare_questions.1 (("a=? -- ?").toList) .dollar (by decide)⟩

/-- C6 witness: the theorem applied at a scalar destination with two
columns and at an empty column list. -/
theorem C6_witness :
    isStruct GoType.tint64 = false ∧
    isCountMismatch (scanRow .tint64 [("a", .dInt 1), ("b", .dInt 2)]) = true ∧
    scanRow (GoType.tstruct "S" false [("A", true, false, "a", .tint)]) [] =
      .error .zeroColumns :=
  ⟨rfl,
    C6_column_count_errors.2 .tint64 [("a", .dInt 1), ("b", .dInt 2)] rfl (by decide),
    C6_column_count_errors.1 (GoType.tstruct "S" false [("A", true, false, "a", .tint)])
      [] rfl⟩

/-- A non-pointer type is unchanged by `derefPtr`. -/
theorem derefPtr_of_not_ptr (t : GoType) (h : kindOf t ≠ .kptr) : derefPtr t = t := by
  unfold derefPtr
  rw [show (100 : Nat) = 99 + 1 from rfl, derefPtrF, if_neg h]

/-- A struct scan is the step-wise execution of the per-column steps,
followed by the collected finalizations. -/
theorem scanRow_struct_eq (rt : GoType) (hs : isStruct rt = true)
    (cols : List (String × DrvVal)) (hne : ¬ cols.length = 0) :
    scanRow rt cols =
      match execSteps rt (cols.map (fun c => (stepOfCol rt c, c.2))) (zeroVal 1000 rt) with
      | .error e => .error e
      | .ok (root, finals) => .ok (applyFinals rt finals root) := by
  unfold scanRow
  rw [if_neg hne]
  unfold getPlan
  simp only [hs, if_true]
  unfold execPlan
  simp only [Bool.true_eq_false, if_false, List.map_map, List.zip_map']
  rfl

/-- A column scanned into the shared discard sink contributes nothing: the
step-wise execution does not depend on its driver value. -/
theorem execSteps_drop_irrel (rt : GoType) (B : List (Step × DrvVal)) (v v' : DrvVal) :
    ∀ (A : List (Step × DrvVal)) (root : MVal),
      execSteps rt (A ++ (Step.drop, v) :: B) root =
      execSteps rt (A ++ (Step.drop, v') :: B) root := by
  intro A
  induction A with
  | nil => intro root; simp [execSteps]
  | cons hd tl ih =>
    intro root
    obtain ⟨st, d⟩ := hd
    cases st with
    | drop => simpa [execSteps] using ih root
    | whole => simpa [execSteps] using ih root
    | direct fp =>
      simp only [List.cons_append, execSteps]
      cases convertAssign (fieldTypeByPath rt fp) d with
      | error e => rfl
      | ok mv => simpa using ih (setPathAlloc rt root fp mv)
    | indirect fp convTo pk =>
      simp only [List.cons_append, execSteps]
      cases convertToTmp convTo d with
      | error e => rfl
      | ok tmp =>
        simp only [List.append_eq]
        rw [ih root]

/-- Writing through a non-empty path that does not start at `k` leaves
top-level field `k` unchanged. -/
theorem mFieldAt_setPathAlloc_ne (t : GoType) (root : MVal) (j : Nat)
    (p : List Nat) (x : MVal) (k : Nat) (hk : kindOf t ≠ .kptr) (hj : j ≠ k) :
    mFieldAt (setPathAlloc t root (j :: p) x) k = mFieldAt root k := by
  unfold setPathAlloc
  rw [if_neg hk]
  cases root <;> simp [mFieldAt, List.getD, List.getElem?_set_ne hj]

/-- Phase-1 frame: if every step is safe for field `k`, the scan leaves
field `k` unchanged and every collected finalization is safe for `k`. -/
theorem execSteps_frame (rt : GoType) (k : Nat) (hk : kindOf rt ≠ .kptr) :
    ∀ (L : List (Step × DrvVal)) (root root' : MVal)
      (finals : List (List Nat × PostKind × TmpVal)),
      (∀ sd ∈ L, stepSafe k sd.1) →
      execSteps rt L root = .ok (root', finals) →
      mFieldAt root' k = mFieldAt root k ∧
        ∀ f ∈ finals, f.1 ≠ [] ∧ f.1.head? ≠ some k := by
  intro L
  induction L with
  | nil =>
    intro root root' finals _ hex
    simp only [execSteps] at hex
    cases hex
    exact ⟨rfl, by simp⟩
  | cons hd tl ih =>
    intro root root' finals hsafe hex
    obtain ⟨st, d⟩ := hd
    have hsafe_hd : stepSafe k st := hsafe (st, d) (by simp)
    have hsafe_tl : ∀ sd ∈ tl, stepSafe k sd.1 := fun sd h => hsafe sd (by simp [h])
    cases st with
    | drop =>
      simp only [execSteps] at hex
      exact ih root root' finals hsafe_tl hex
    | whole =>
      simp only [execSteps] at hex
      exact ih root root' finals hsafe_tl hex
    | direct fp =>
      simp only [execSteps] at hex
      cases hca : convertAssign (fieldTypeByPath rt fp) d with
      | error e => rw [hca] at hex; cases hex
      | ok mv =>
        rw [hca] at hex
        obtain ⟨hfp, hhd⟩ := hsafe_hd
        obtain ⟨j, p, rfl⟩ : ∃ j p, fp = j :: p := by
          cases fp with
          | nil => exact absurd rfl hfp
          | cons j p => exact ⟨j, p, rfl⟩
        have hj : j ≠ k := by
          intro h
          exact hhd (by simp [h])
        have := ih (setPathAlloc rt root (j :: p) mv) root' finals hsafe_tl hex
        exact ⟨this.1.trans (mFieldAt_setPathAlloc_ne rt root j p mv k hk hj), this.2⟩
    | indirect fp convTo pk =>
      simp only [execSteps] at hex
      cases hct : convertToTmp convTo d with
      | error e => rw [hct] at hex; cases hex
      | ok tmp =>
        rw [hct] at hex
        cases hrec : execSteps rt tl root with
        | error e => rw [hrec] at hex; cases hex
        | ok rf =>
          obtain ⟨root'', finals''⟩ := rf
          rw [hrec] at hex
          obtain ⟨h1, h2⟩ := Prod.mk.injEq .. ▸ (Except.ok.injEq .. ▸ hex)
          have := ih root root'' finals'' hsafe_tl hrec
          obtain ⟨hfp, hhd⟩ := hsafe_hd
          subst h1
          refine ⟨this.1, fun f hf => ?_⟩
          rw [← h2] at hf
          rcases List.mem_cons.mp hf with hf | hf
          · subst hf; exact ⟨hfp, hhd⟩
          · exact this.2 f hf

/-- Phase-2 frame: finalizations safe for field `k` leave it unchanged. -/
theorem applyFinals_frame (rt : GoType) (k : Nat) (hk : kindOf rt ≠ .kptr) :
    ∀ (fs : List (List Nat × PostKind × TmpVal)) (root : MVal),
      (∀ f ∈ fs, f.1 ≠ [] ∧ f.1.head? ≠ some k) →
      mFieldAt (applyFinals rt fs root) k = mFieldAt root k := by
  intro fs
  induction fs with
  | nil => intro root _; rfl
  | cons hd tl ih =>
    intro root hsafe
    obtain ⟨fp, pk, tmp⟩ := hd
    obtain ⟨hfp, hhd⟩ := hsafe (fp, pk, tmp) (by simp)
    obtain ⟨j, p, rfl⟩ : ∃ j p, fp = j :: p := by
      cases fp with
      | nil => exact absurd rfl hfp
      | cons j p => exact ⟨j, p, rfl⟩
    have hj : j ≠ k := fun h => hhd (by simp [h])
    simp only [applyFinals]
    rw [ih _ (fun f hf => hsafe f (by simp [hf]))]
    exact mFieldAt_setPathAlloc_ne rt root j p _ k hk hj

/-- The step built for a matched column inherits its path's safety. -/
theorem stepSafe_makeFieldStep (rt : GoType) (fp : List Nat) (k : Nat)
    (h1 : fp ≠ []) (h2 : fp.head? ≠ some k) : stepSafe k (makeFieldStep rt fp) := by
  unfold makeFieldStep
  by_cases hs : implementsScanner (fieldTypeByPath rt fp)
  · simp only [hs, if_true]
    exact ⟨h1, h2⟩
  · simp only [hs, Bool.false_eq_true, if_false]
    cases pickIndirect (fieldTypeByPath rt fp) with
    | none => exact ⟨h1, h2⟩
    | some r => obtain ⟨convTo, post⟩ := r; exact ⟨h1, h2⟩

/-- C10 (amended): every result column with no matching field is scanned
into the shared discard sink — the scan result does not depend on such a
column's value — and a top-level destination field at which no matched
column path starts retains its zero value after a successful scan.  (A
field that merely contains matched sub-fields may be modified: nil
embedded/inline pointers on a matched path are allocated — see the
counterexample.) -/
theorem C10_drop_sink_and_zero_fields :
    (∀ (rt : GoType) (pre post : List (String × DrvVal)) (nm : String) (v v' : DrvVal),
      isStruct rt = true →
      lookupIndex (buildStructIndex rt) (String.mk (normalizeColAscii nm.toList)) = none →
      scanRow rt (pre ++ (nm, v) :: post) = scanRow rt (pre ++ (nm, v') :: post)) ∧
    (∀ (rt : GoType) (cols : List (String × DrvVal)) (k : Nat) (m : MVal),
      kindOf rt = .kstruct →
      (∀ c ∈ cols, colSafe rt k c = true) →
      scanRow rt cols = .ok m →
      mFieldAt m k = mFieldAt (zeroVal 1000 rt) k) := by
  constructor
  · intro rt pre post nm v v' hs hnone
    rw [scanRow_struct_eq rt hs (pre ++ (nm, v) :: post) (by simp),
        scanRow_struct_eq rt hs (pre ++ (nm, v') :: post) (by simp)]
    simp only [List.map_append, List.map_cons]
    have hstep : stepOfCol rt (nm, v) = (.drop : Step) := by
      show (match lookupIndex (buildStructIndex rt)
          (String.mk (normalizeColAscii nm.toList)) with
        | some fp => makeFieldStep rt fp
        | none => Step.drop) = Step.drop
      rw [hnone]
    have hstep' : stepOfCol rt (nm, v') = (.drop : Step) := by
      show (match lookupIndex (buildStructIndex rt)
          (String.mk (normalizeColAscii nm.toList)) with
        | some fp => makeFieldStep rt fp
        | none => Step.drop) = Step.drop
      rw [hnone]
    rw [hstep, hstep', execSteps_drop_irrel]
  · intro rt cols k m hks hsafe hok
    have hkp : kindOf rt ≠ .kptr := by rw [hks]; intro h; cases h
    have hs : isStruct rt = true := by
      unfold isStruct
      rw [derefPtr_of_not_ptr rt hkp, hks]
      simp
    have hne : ¬ cols.length = 0 := by
      intro hlen
      simp [scanRow, hlen] at hok
    rw [scanRow_struct_eq rt hs cols hne] at hok
    have hsteps : ∀ sd ∈ cols.map (fun c => (stepOfCol rt c, c.2)), stepSafe k sd.1 := by
      intro sd hsd
      obtain ⟨c, hc, rfl⟩ := List.mem_map.mp hsd
      have hcs := hsafe c hc
      unfold colSafe at hcs
      show stepSafe k (stepOfCol rt c)
      unfold stepOfCol
      cases hl : lookupIndex (buildStructIndex rt)
          (String.mk (normalizeColAscii c.1.toList)) with
      | none => trivial
      | some fp =>
        rw [hl] at hcs
        simp only [Bool.and_eq_true, decide_eq_true_eq] at hcs
        exact stepSafe_makeFieldStep rt fp k hcs.1 hcs.2
    cases hex : execSteps rt (cols.map (fun c => (stepOfCol rt c, c.2))) (zeroVal 1000 rt) with
    | error e => rw [hex] at hok; cases hok
    | ok rf =>
      obtain ⟨root', finals⟩ := rf
      rw [hex] at hok
      have hm : m = applyFinals rt finals root' := by
        cases hok; rfl
      obtain ⟨hroot, hfin⟩ :=
        execSteps_frame rt k hkp _ (zeroVal 1000 rt) root' finals hsteps hex
      rw [hm, applyFinals_frame rt k hkp finals root' hfin, hroot]

/-- C10 counterexample: scanning `Member` (with an inline `*Org` field)
from the single column `org_id` allocates the `Org` pointer — a top-level
destination field matched by no column (only its sub-field is) does not
retain its zero value `nil`. -/
theorem C10_counterexample :
    mFieldAt (zeroVal 1000 (GoType.tstruct "Member" false
      [("ID", true, false, "id", .tint64), ("Email", true, false, "email", .tstring),
       ("Org", true, false, ",inline", .tptr (.tstruct "Org" false
         [("OrgID", true, false, "org_id", .tint64),
          ("OrgName", true, false, "org_name", .tstring)]))])) 2 = .mPtrNil ∧
    lookupIndex (buildStructIndex (GoType.tstruct "Member" false
      [("ID", true, false, "id", .tint64), ("Email", true, false, "email", .tstring),
       ("Org", true, false, ",inline", .tptr (.tstruct "Org" false
         [("OrgID", true, false, "org_id", .tint64),
          ("OrgName", true, false, "org_name", .tstring)]))]))
      (String.mk (normalizeColAscii (("org_id").toList))) = some [2, 0] ∧
    scanRow (GoType.tstruct "Member" false
      [("ID", true, false, "id", .tint64), ("Email", true, false, "email", .tstring),
       ("Org", true, false, ",inline", .tptr (.tstruct "Org" false
         [("OrgID", true, false, "org_id", .tint64),
          ("OrgName", true, false, "org_name", .tstring)]))])
      [("org_id", .dInt 5)] =
      .ok (.mStruct [.mInt 0, .mStr "", .mPtr (.mStruct [.mInt 5, .mStr ""])]) ∧
    (MVal.mPtr (.mStruct [.mInt 5, .mStr ""]) ≠ .mPtrNil) :=
  ⟨rfl, rfl, rfl, fun h => nomatch h⟩

/-- C10 witness: both parts applied at concrete inputs — an unmatched
column's value is irrelevant, and field 0 (`ID`) stays zero when only
`org_id` is scanned. -/
theorem C10_witness :
    (isStruct (GoType.tstruct "Row" false [("ID", true, false, "id", .tint64)]) = true ∧
     lookupIndex (buildStructIndex (GoType.tstruct "Row" false
        [("ID", true, false, "id", .tint64)]))
        (String.mk (normalizeColAscii (("zz").toList))) = none ∧
     scanRow (GoType.tstruct "Row" false [("ID", true, false, "id", .tint64)])
        [("id", .dInt 3), ("zz", .dStr "a")] =
     scanRow (GoType.tstruct "Row" false [("ID", true, false, "id", .tint64)])
        [("id", .dInt 3), ("zz", .dStr "b")]) ∧
    (kindOf (GoType.tstruct "Member" false
      [("ID", true, false, "id", .tint64), ("Email", true, false, "email", .tstring),
       ("Org", true, false, ",inline", .tptr (.tstruct "Org" false
         [("OrgID", true, false, "org_id", .tint64),
          ("OrgName", true, false, "org_name", .tstring)]))]) = .kstruct ∧
     mFieldAt (MVal.mStruct [.mInt 0, .mStr "", .mPtr (.mStruct [.mInt 5, .mStr ""])]) 0 =
       mFieldAt (zeroVal 1000 (GoType.tstruct "Member" false
        [("ID", true, false, "id", .tint64), ("Email", true, false, "email", .tstring),
         ("Org", true, false, ",inline", .tptr (.tstruct "Org" false
           [("OrgID", true, false, "org_id", .tint64),
            ("OrgName", true, false, "org_name", .tstring)]))])) 0) :=
  ⟨⟨rfl, rfl,
    C10_drop_sink_and_zero_fields.1
      (GoType.tstruct "Row" false [("ID", true, false, "id", .tint64)])
      [("id", .dInt 3)] [] "zz" (.dStr "a") (.dStr "b") rfl rfl⟩,
   rfl,
    C10_drop_sink_and_zero_fields.2
      (GoType.tstruct "Member" false
        [("ID", true, false, "id", .tint64), ("Email", true, false, "email", .tstring),
         ("Org", true, false, ",inline", .tptr (.tstruct "Org" false
           [("OrgID", true, false, "org_id", .tint64),
            ("OrgName", true, false, "org_name", .tstring)]))])
      [("org_id", .dInt 5)] 0
      (.mStruct [.mInt 0, .mStr "", .mPtr (.mStruct [.mInt 5, .mStr ""])])
      rfl (by decide) rfl⟩

end Xsql
